import Mathlib

/-!
# Verification of the universal-silabs-flasher core

Shallow embedding of the flasher's probing/orchestration engine
(`flasher.py`), the router line protocol (`router.py`) and the CPC
transport framing layer, together with proofs of the specified
properties.  Bytes are modelled as `Nat` values below 256; byte
sequences as `List Nat`.
-/

set_option maxRecDepth 100000

namespace SilabsFlasher

/-! ## CPC transport framing

Modelled from the spec: `cpc.py` / `cpc_types.py` are not part of the
provided sources (only their tests are), so the frame layout, the
CRC-16 parameters and the streaming deserializer are reconstructed from
the spec's wire-format description and pinned bit-for-bit by the two
golden serialization vectors.
-/

/-- Modelled from the spec: CRC-16 step for a single bit, polynomial
0x1021, most-significant-bit first. -/
def crc16Bit (crc : Nat) : Nat :=
  if crc.testBit 15 then ((crc <<< 1) ^^^ 0x1021) % 65536
  else (crc <<< 1) % 65536

/-- Modelled from the spec: fold one byte into the running CRC-16. -/
def crc16Byte (crc b : Nat) : Nat :=
  let c := (crc ^^^ (b <<< 8)) % 65536
  crc16Bit (crc16Bit (crc16Bit (crc16Bit (crc16Bit (crc16Bit (crc16Bit (crc16Bit c)))))))

/-- Modelled from the spec: CRC-16 (poly 0x1021, init 0, MSB first) of a
byte sequence, as used for both the header and payload checksums. -/
def crc16 (data : List Nat) : Nat :=
  data.foldl crc16Byte 0

/-- Little-endian encoding of a 16-bit value as two bytes. -/
def toLE16 (n : Nat) : List Nat :=
  [n % 256, (n / 256) % 256]

/-- Little-endian encoding of a 32-bit value as four bytes. -/
def toLE32 (n : Nat) : List Nat :=
  [n % 256, (n / 256) % 256, (n / 65536) % 256, (n / 16777216) % 256]

/-- Endpoint identifier of the system endpoint. -/
def SYSTEM : Nat := 0

/-- Unnumbered-frame command id of a property-value notification. -/
def PROP_VALUE_IS : Nat := 6

/-- Property id of the secondary's CPC version. -/
def SECONDARY_CPC_VERSION : Nat := 3

/-- Property id of the secondary's application version. -/
def SECONDARY_APP_VERSION : Nat := 4

/-- Modelled from the spec: a property key/value exchange; the value is
an opaque byte blob. -/
structure PropertyCommand where
  property_id : Nat
  value : List Nat
  deriving Repr, DecidableEq

/-- Modelled from the spec: an unnumbered CPC frame carrying a property
command. -/
structure UnnumberedFrame where
  command_id : Nat
  command_seq : Nat
  payload : PropertyCommand
  deriving Repr, DecidableEq

/-- Modelled from the spec: one complete CPC transport frame. -/
structure CPCTransportFrame where
  endpoint : Nat
  control : Nat
  payload : UnnumberedFrame
  deriving Repr, DecidableEq

/-- Modelled from the spec: property command wire form, a 4-byte
little-endian property id followed by the raw value bytes. -/
def PropertyCommand.serialize (cmd : PropertyCommand) : List Nat :=
  toLE32 cmd.property_id ++ cmd.value

/-- Modelled from the spec: unnumbered frame wire form, command id,
command sequence, a 2-byte little-endian inner length, then the
property command bytes. -/
def UnnumberedFrame.serialize (uf : UnnumberedFrame) : List Nat :=
  let inner := uf.payload.serialize
  [uf.command_id, uf.command_seq] ++ toLE16 inner.length ++ inner

/-- Modelled from the spec: full transport frame wire form.  The header
is a sync byte 0x14, the endpoint, a 2-byte little-endian total length
(covering everything after the header), the control byte and a 2-byte
header CRC-16; it is followed by the unnumbered frame bytes and a
2-byte payload CRC-16. -/
def CPCTransportFrame.serialize (f : CPCTransportFrame) : List Nat :=
  let body := f.payload.serialize
  let hdr := [0x14, f.endpoint] ++ toLE16 (body.length + 2) ++ [f.control]
  hdr ++ toLE16 (crc16 hdr) ++ body ++ toLE16 (crc16 body)

/-- The first golden frame of the test suite. -/
def FRAME1 : CPCTransportFrame :=
  { endpoint := SYSTEM
    control := 196
    payload :=
      { command_id := PROP_VALUE_IS
        command_seq := 0
        payload :=
          { property_id := SECONDARY_CPC_VERSION
            value := [4, 0, 0, 0, 4, 0, 0, 0, 3, 0, 0, 0] } } }

/-- The second golden frame of the test suite; the value is the ASCII
encoding of the string 4.4.3-0368642c followed by a NUL byte. -/
def FRAME2 : CPCTransportFrame :=
  { endpoint := SYSTEM
    control := 196
    payload :=
      { command_id := PROP_VALUE_IS
        command_seq := 1
        payload :=
          { property_id := SECONDARY_APP_VERSION
            value := [0x34, 0x2E, 0x34, 0x2E, 0x33, 0x2D, 0x30, 0x33,
                      0x36, 0x38, 0x36, 0x34, 0x32, 0x63, 0x00] } } }

example : FRAME1.serialize =
    [0x14, 0x00, 0x16, 0x00, 0xC4, 0x57, 0xE5, 0x06, 0x00, 0x10, 0x00,
     0x03, 0x00, 0x00, 0x00, 0x04, 0x00, 0x00, 0x00, 0x04, 0x00, 0x00,
     0x00, 0x03, 0x00, 0x00, 0x00, 0x7D, 0x3E] := by decide

example : FRAME2.serialize =
    [0x14, 0x00, 0x19, 0x00, 0xC4, 0x66, 0xC9, 0x06, 0x01, 0x13, 0x00,
     0x04, 0x00, 0x00, 0x00, 0x34, 0x2E, 0x34, 0x2E, 0x33, 0x2D, 0x30,
     0x33, 0x36, 0x38, 0x36, 0x34, 0x32, 0x63, 0x00, 0x0B, 0xBA] := by decide

/-- Modelled from the spec: decode the frame that starts at the front
of `buf` whose header declared total length is `len`.  Byte offsets:
endpoint at 1, control at 4, command id at 7, command sequence at 8,
property id little-endian at 11..14, value from 15 to the end of the
frame body (which excludes the trailing 2-byte payload CRC). -/
def parseFrame (buf : List Nat) (len : Nat) : CPCTransportFrame :=
  { endpoint := buf.getD 1 0
    control := buf.getD 4 0
    payload :=
      { command_id := buf.getD 7 0
        command_seq := buf.getD 8 0
        payload :=
          { property_id := buf.getD 11 0 + 256 * buf.getD 12 0 +
              65536 * buf.getD 13 0 + 16777216 * buf.getD 14 0
            value := (buf.drop 15).take (len - 10) } } }

/-- Modelled from the spec: the deserializer's drain loop.  Repeatedly
extract one complete CRC-valid frame from the front of the buffer:
wait (keeping the buffer) when fewer than the 7 header bytes or fewer
than the declared frame length are buffered; clear the whole buffer on
a header or payload CRC failure; otherwise deliver the parsed frame,
consume its bytes and repeat.  The fuel argument only bounds recursion
and is in practice at least the buffer length. -/
def drainAux : Nat → List Nat → List CPCTransportFrame × List Nat
  | 0, buf => ([], buf)
  | fuel + 1, buf =>
    if buf.length < 7 then ([], buf)
    else
      let len := buf.getD 2 0 + 256 * buf.getD 3 0
      if toLE16 (crc16 (buf.take 5)) ≠ [buf.getD 5 0, buf.getD 6 0] then ([], [])
      else if buf.length < 7 + len then ([], buf)
      else
        let body := (buf.drop 7).take (len - 2)
        if toLE16 (crc16 body) ≠ (buf.drop (5 + len)).take 2 then ([], [])
        else
          let rest := drainAux fuel (buf.drop (7 + len))
          (parseFrame buf len :: rest.1, rest.2)

/-- Modelled from the spec: deliver one received chunk to the
deserializer.  The state is the ordered list of frames delivered so far
together with the internal accumulation buffer; the chunk is appended
to the buffer and the drain loop runs. -/
def dataReceived (st : List CPCTransportFrame × List Nat) (data : List Nat) :
    List CPCTransportFrame × List Nat :=
  let buf := st.2 ++ data
  let r := drainAux buf.length buf
  (st.1 ++ r.1, r.2)

/-- Feed a list of chunks to a fresh deserializer, returning the
delivered frames and the final buffer. -/
def processChunks (chunks : List (List Nat)) : List CPCTransportFrame × List Nat :=
  chunks.foldl dataReceived ([], [])

/-- A frame whose fields are all in range for the wire format: byte
fields below 256, the property id below 2^32, value bytes below 256 and
the value short enough for the 16-bit length field. -/
def ValidFrame (f : CPCTransportFrame) : Prop :=
  f.endpoint < 256 ∧ f.control < 256 ∧ f.payload.command_id < 256 ∧
    f.payload.command_seq < 256 ∧ f.payload.payload.property_id < 4294967296 ∧
    (∀ b ∈ f.payload.payload.value, b < 256) ∧
    f.payload.payload.value.length + 10 < 65536

instance (f : CPCTransportFrame) : Decidable (ValidFrame f) := by
  unfold ValidFrame; infer_instance

/-- The byte stream obtained by serializing a list of frames in order. -/
def streamOf (fs : List CPCTransportFrame) : List Nat :=
  (fs.map CPCTransportFrame.serialize).flatten

theorem payload_serialize_length (uf : UnnumberedFrame) :
    uf.serialize.length = 8 + uf.payload.value.length := by
  simp [UnnumberedFrame.serialize, PropertyCommand.serialize, toLE16, toLE32]
  omega

theorem serialize_length (f : CPCTransportFrame) :
    f.serialize.length = 17 + f.payload.payload.value.length := by
  simp [CPCTransportFrame.serialize, toLE16, payload_serialize_length]
  omega

/-- Fully cons-expanded form of a serialized frame followed by trailing
bytes; every fixed-offset byte of the wire layout is made explicit. -/
theorem serialize_expand (f : CPCTransportFrame) (rest : List Nat) :
    f.serialize ++ rest =
      0x14 :: f.endpoint :: ((f.payload.serialize.length + 2) % 256) ::
      ((f.payload.serialize.length + 2) / 256 % 256) :: f.control ::
      (crc16 [0x14, f.endpoint, (f.payload.serialize.length + 2) % 256,
        (f.payload.serialize.length + 2) / 256 % 256, f.control] % 256) ::
      (crc16 [0x14, f.endpoint, (f.payload.serialize.length + 2) % 256,
        (f.payload.serialize.length + 2) / 256 % 256, f.control] / 256 % 256) ::
      f.payload.command_id :: f.payload.command_seq ::
      (f.payload.payload.serialize.length % 256) ::
      (f.payload.payload.serialize.length / 256 % 256) ::
      (f.payload.payload.property_id % 256) ::
      (f.payload.payload.property_id / 256 % 256) ::
      (f.payload.payload.property_id / 65536 % 256) ::
      (f.payload.payload.property_id / 16777216 % 256) ::
      (f.payload.payload.value ++
        (crc16 f.payload.serialize % 256) ::
        (crc16 f.payload.serialize / 256 % 256) :: rest) := by
  simp [CPCTransportFrame.serialize, UnnumberedFrame.serialize,
    PropertyCommand.serialize, toLE16, toLE32]

example : processChunks [FRAME1.serialize, FRAME2.serialize] = ([FRAME1, FRAME2], []) := by decide
example : processChunks ((FRAME1.serialize ++ FRAME2.serialize).map (fun b => [b])) =
    ([FRAME1, FRAME2], []) := by decide
example : processChunks [List.replicate 21 0x61 ++ [13, 10]] = ([], []) := by decide

theorem drainAux_nil (fuel : Nat) : drainAux fuel [] = ([], []) := by
  cases fuel <;> simp [drainAux]

theorem serialize_expand_app (f : CPCTransportFrame) (rest : List Nat) :
    f.serialize ++ rest =
      ([0x14, f.endpoint, (f.payload.serialize.length + 2) % 256,
        (f.payload.serialize.length + 2) / 256 % 256, f.control,
        crc16 [0x14, f.endpoint, (f.payload.serialize.length + 2) % 256,
          (f.payload.serialize.length + 2) / 256 % 256, f.control] % 256,
        crc16 [0x14, f.endpoint, (f.payload.serialize.length + 2) % 256,
          (f.payload.serialize.length + 2) / 256 % 256, f.control] / 256 % 256] ++
       f.payload.serialize) ++
      ((crc16 f.payload.serialize % 256) :: (crc16 f.payload.serialize / 256 % 256) :: rest) := by
  simp [CPCTransportFrame.serialize, toLE16]

theorem take_append_exact {α : Type} (l₁ l₂ : List α) (n : Nat) (h : n = l₁.length) :
    (l₁ ++ l₂).take n = l₁ := by
  subst h; exact List.take_left _ _

theorem drop_append_exact {α : Type} (l₁ l₂ : List α) (n : Nat) (h : n = l₁.length) :
    (l₁ ++ l₂).drop n = l₂ := by
  subst h; exact List.drop_left _ _

theorem take_append_of_le {α : Type} (l₁ l₂ : List α) (n : Nat) (h : n ≤ l₁.length) :
    (l₁ ++ l₂).take n = l₁.take n :=
  List.take_append_of_le_length h

theorem drainAux_cons (f : CPCTransportFrame) (rest : List Nat) (n : Nat)
    (hf : ValidFrame f) :
    drainAux (n + 1) (f.serialize ++ rest) =
      (f :: (drainAux n rest).1, (drainAux n rest).2) := by
  obtain ⟨he, hc, hcmd, hseq, hpid, hval, hvlen⟩ := hf
  have hplen : f.payload.serialize.length = 8 + f.payload.payload.value.length :=
    payload_serialize_length _
  have hexp := serialize_expand f rest
  have happ := serialize_expand_app f rest
  have hbuflen : (f.serialize ++ rest).length =
      17 + f.payload.payload.value.length + rest.length := by
    simp [serialize_length f]
  have h7 : ¬((f.serialize ++ rest).length < 7) := by omega
  have hg2 : (f.serialize ++ rest).getD 2 0 = (f.payload.serialize.length + 2) % 256 := by
    rw [hexp]; simp [List.getD]
  have hg3 : (f.serialize ++ rest).getD 3 0 = (f.payload.serialize.length + 2) / 256 % 256 := by
    rw [hexp]; simp [List.getD]
  have hlen256 : (f.payload.serialize.length + 2) % 256 +
      256 * ((f.payload.serialize.length + 2) / 256 % 256) = f.payload.serialize.length + 2 := by
    omega
  have htake5 : (f.serialize ++ rest).take 5 =
      [0x14, f.endpoint, (f.payload.serialize.length + 2) % 256,
       (f.payload.serialize.length + 2) / 256 % 256, f.control] := by
    rw [hexp]; simp
  have hg5 : (f.serialize ++ rest).getD 5 0 =
      crc16 [0x14, f.endpoint, (f.payload.serialize.length + 2) % 256,
        (f.payload.serialize.length + 2) / 256 % 256, f.control] % 256 := by
    rw [hexp]; simp [List.getD]
  have hg6 : (f.serialize ++ rest).getD 6 0 =
      crc16 [0x14, f.endpoint, (f.payload.serialize.length + 2) % 256,
        (f.payload.serialize.length + 2) / 256 % 256, f.control] / 256 % 256 := by
    rw [hexp]; simp [List.getD]
  have hwait : ¬((f.serialize ++ rest).length < 7 + (f.payload.serialize.length + 2)) := by
    omega
  have e1 : (f.serialize ++ rest).drop 7 = f.payload.serialize ++
      ((crc16 f.payload.serialize % 256) :: (crc16 f.payload.serialize / 256 % 256) :: rest) := by
    rw [happ, List.append_assoc]
    exact drop_append_exact _ _ _ (by simp)
  have hbody : ((f.serialize ++ rest).drop 7).take (f.payload.serialize.length + 2 - 2) =
      f.payload.serialize := by
    rw [e1]
    exact take_append_exact _ _ _ (by omega)
  have e2 : (f.serialize ++ rest).drop (5 + (f.payload.serialize.length + 2)) =
      (crc16 f.payload.serialize % 256) :: (crc16 f.payload.serialize / 256 % 256) :: rest := by
    rw [happ]
    exact drop_append_exact _ _ _ (by simp only [List.length_append, List.length_cons, List.length_nil]; omega)
  have hpcrc : ((f.serialize ++ rest).drop (5 + (f.payload.serialize.length + 2))).take 2 =
      [crc16 f.payload.serialize % 256, crc16 f.payload.serialize / 256 % 256] := by
    rw [e2]
    rfl
  have hvalue : ((f.serialize ++ rest).drop 15).take (f.payload.serialize.length + 2 - 10) =
      f.payload.payload.value := by
    rw [show f.payload.serialize.length + 2 - 10 = f.payload.payload.value.length from by omega]
    rw [hexp]
    simp [List.take_left]
  have hparse : parseFrame (f.serialize ++ rest) (f.payload.serialize.length + 2) = f := by
    unfold parseFrame
    rw [hexp]
    simp only [List.getD_cons_succ, List.getD_cons_zero]
    rw [← hexp, hvalue]
    have hp : f.payload.payload.property_id % 256 +
        256 * (f.payload.payload.property_id / 256 % 256) +
        65536 * (f.payload.payload.property_id / 65536 % 256) +
        16777216 * (f.payload.payload.property_id / 16777216 % 256) =
        f.payload.payload.property_id := by omega
    rw [hp]
  have hdropf : (f.serialize ++ rest).drop (7 + (f.payload.serialize.length + 2)) = rest := by
    rw [show 7 + (f.payload.serialize.length + 2) = f.serialize.length from by
      rw [serialize_length]; omega]
    exact List.drop_left _ _
  rw [drainAux]
  rw [if_neg h7]
  simp only [hg2, hg3, hlen256, htake5, hg5, hg6, toLE16]
  rw [if_neg (not_not_intro rfl), if_neg hwait]
  simp only [hbody, hpcrc]
  rw [if_neg (not_not_intro rfl)]
  rw [hparse, hdropf]



theorem streamOf_nil : streamOf [] = [] := rfl

theorem streamOf_cons (f : CPCTransportFrame) (fs : List CPCTransportFrame) :
    streamOf (f :: fs) = f.serialize ++ streamOf fs := by
  simp [streamOf]

theorem streamOf_append (l₁ l₂ : List CPCTransportFrame) :
    streamOf (l₁ ++ l₂) = streamOf l₁ ++ streamOf l₂ := by
  simp [streamOf]

theorem serialize_getD2 (f : CPCTransportFrame) (rest : List Nat) :
    (f.serialize ++ rest).getD 2 0 = (f.payload.serialize.length + 2) % 256 := by
  rw [serialize_expand]; simp [List.getD]

theorem serialize_getD3 (f : CPCTransportFrame) (rest : List Nat) :
    (f.serialize ++ rest).getD 3 0 = (f.payload.serialize.length + 2) / 256 % 256 := by
  rw [serialize_expand]; simp [List.getD]

theorem serialize_getD5 (f : CPCTransportFrame) (rest : List Nat) :
    (f.serialize ++ rest).getD 5 0 =
      crc16 [0x14, f.endpoint, (f.payload.serialize.length + 2) % 256,
        (f.payload.serialize.length + 2) / 256 % 256, f.control] % 256 := by
  rw [serialize_expand]; simp [List.getD]

theorem serialize_getD6 (f : CPCTransportFrame) (rest : List Nat) :
    (f.serialize ++ rest).getD 6 0 =
      crc16 [0x14, f.endpoint, (f.payload.serialize.length + 2) % 256,
        (f.payload.serialize.length + 2) / 256 % 256, f.control] / 256 % 256 := by
  rw [serialize_expand]; simp [List.getD]

theorem serialize_take5 (f : CPCTransportFrame) (rest : List Nat) :
    (f.serialize ++ rest).take 5 =
      [0x14, f.endpoint, (f.payload.serialize.length + 2) % 256,
       (f.payload.serialize.length + 2) / 256 % 256, f.control] := by
  rw [serialize_expand]; simp

/-- A strict prefix of a valid frame's wire bytes makes the drain loop
wait for more data, leaving the buffer untouched. -/
theorem drainAux_stuck (g : CPCTransportFrame) (s buf : List Nat) (fuel : Nat)
    (hg : ValidFrame g) (hpre : buf <+: g.serialize ++ s)
    (hlt : buf.length < g.serialize.length) :
    drainAux fuel buf = ([], buf) := by
  cases fuel with
  | zero => rfl
  | succ n =>
    rw [drainAux]
    by_cases h7 : buf.length < 7
    · rw [if_pos h7]
    · rw [if_neg h7]
      obtain ⟨he, hc, hcmd, hseq, hpid, hval, hvlen⟩ := hg
      have hplen : g.payload.serialize.length = 8 + g.payload.payload.value.length :=
        payload_serialize_length _
      have hslen : g.serialize.length = 17 + g.payload.payload.value.length :=
        serialize_length g
      obtain ⟨t, ht⟩ := hpre
      have hg2 : buf.getD 2 0 = (g.payload.serialize.length + 2) % 256 := by
        rw [← List.getD_append buf t 0 2 (by omega), ht, serialize_getD2]
      have hg3 : buf.getD 3 0 = (g.payload.serialize.length + 2) / 256 % 256 := by
        rw [← List.getD_append buf t 0 3 (by omega), ht, serialize_getD3]
      have hg5 : buf.getD 5 0 =
          crc16 [0x14, g.endpoint, (g.payload.serialize.length + 2) % 256,
            (g.payload.serialize.length + 2) / 256 % 256, g.control] % 256 := by
        rw [← List.getD_append buf t 0 5 (by omega), ht, serialize_getD5]
      have hg6 : buf.getD 6 0 =
          crc16 [0x14, g.endpoint, (g.payload.serialize.length + 2) % 256,
            (g.payload.serialize.length + 2) / 256 % 256, g.control] / 256 % 256 := by
        rw [← List.getD_append buf t 0 6 (by omega), ht, serialize_getD6]
      have ht5 : buf.take 5 =
          [0x14, g.endpoint, (g.payload.serialize.length + 2) % 256,
           (g.payload.serialize.length + 2) / 256 % 256, g.control] := by
        rw [← take_append_of_le buf t 5 (by omega), ht, serialize_take5]
      have hlen256 : (g.payload.serialize.length + 2) % 256 +
          256 * ((g.payload.serialize.length + 2) / 256 % 256) =
          g.payload.serialize.length + 2 := by omega
      simp only [hg2, hg3, hg5, hg6, ht5, hlen256, toLE16]
      rw [if_neg (not_not_intro rfl), if_pos (by omega)]


/-- Draining any prefix of a valid frame stream delivers exactly the
complete frames contained in it and retains the partial remainder. -/
theorem drainAux_prefix (fs : List CPCTransportFrame) :
    ∀ (buf : List Nat) (fuel : Nat),
      (∀ f ∈ fs, ValidFrame f) → buf.length ≤ fuel → buf <+: streamOf fs →
      ∃ fs₁ fs₂ rem, fs = fs₁ ++ fs₂ ∧ drainAux fuel buf = (fs₁, rem) ∧
        streamOf fs₁ ++ rem = buf ∧ rem <+: streamOf fs₂ ∧
        (∀ g gs, fs₂ = g :: gs → rem.length < g.serialize.length) ∧
        (fs₂ = [] → rem = []) := by
  induction fs with
  | nil =>
    intro buf fuel _ _ hpre
    rw [streamOf_nil, List.prefix_nil] at hpre
    subst hpre
    refine ⟨[], [], [], rfl, drainAux_nil fuel, rfl, by simp, ?_, fun _ => rfl⟩
    exact fun g gs h => nomatch h
  | cons g gs ih =>
    intro buf fuel hv hfuel hpre
    rw [streamOf_cons] at hpre
    by_cases hsz : buf.length < g.serialize.length
    · refine ⟨[], g :: gs, buf, rfl,
        drainAux_stuck g (streamOf gs) buf fuel (hv g (by simp)) hpre hsz, rfl,
        by rw [streamOf_cons]; exact hpre, ?_, by intro h; cases h⟩
      intro g' gs' h
      rw [List.cons.injEq] at h
      rw [← h.1]
      exact hsz
    · push_neg at hsz
      have hgslen : g.serialize.length = 17 + g.payload.payload.value.length :=
        serialize_length g
      have hgp : g.serialize <+: buf :=
        List.prefix_of_prefix_length_le (List.prefix_append _ _) hpre hsz
      obtain ⟨d, hd⟩ := hgp
      have hdpre : d <+: streamOf gs := by
        obtain ⟨t, ht⟩ := hpre
        refine ⟨t, ?_⟩
        have : g.serialize ++ (d ++ t) = g.serialize ++ streamOf gs := by
          rw [← List.append_assoc, hd, ht]
        exact List.append_cancel_left this
      cases fuel with
      | zero =>
        exfalso
        have := hd ▸ hfuel
        simp at this
        omega
      | succ n =>
        obtain ⟨fs₁, fs₂, rem, hsplit, hdrain, hbufeq, hpre2, hstuck2, hnil2⟩ :=
          ih d n (fun f hf => hv f (List.mem_cons_of_mem _ hf)) (by
            have : buf.length = g.serialize.length + d.length := by rw [← hd]; simp
            omega) hdpre
        refine ⟨g :: fs₁, fs₂, rem, by rw [hsplit]; rfl, ?_, ?_, hpre2, hstuck2, hnil2⟩
        · rw [← hd, drainAux_cons g d n (hv g (by simp)), hdrain]
        · rw [streamOf_cons, List.append_assoc, hbufeq, hd]

/-- Feeding chunks that jointly spell a valid frame stream delivers all
frames whose bytes are complete, independent of chunk boundaries. -/
theorem foldl_dataReceived (chunks : List (List Nat)) :
    ∀ (fs done : List CPCTransportFrame) (buf : List Nat),
      (∀ f ∈ fs, ValidFrame f) →
      (∀ g gs, fs = g :: gs → buf.length < g.serialize.length) →
      (fs = [] → buf = []) →
      buf ++ chunks.flatten = streamOf fs →
      chunks.foldl dataReceived (done, buf) = (done ++ fs, []) := by
  induction chunks with
  | nil =>
    intro fs done buf hv hstuck hnil hjoin
    simp only [List.flatten_nil, List.append_nil] at hjoin
    cases fs with
    | nil =>
      rw [hnil rfl]
      simp
    | cons g gs =>
      exfalso
      have h1 := hstuck g gs rfl
      have h2 : buf.length = (streamOf (g :: gs)).length := by rw [hjoin]
      rw [streamOf_cons] at h2
      simp at h2
      omega
  | cons c cs ih =>
    intro fs done buf hv hstuck hnil hjoin
    have hpre : (buf ++ c) <+: streamOf fs := by
      refine ⟨cs.flatten, ?_⟩
      rw [List.append_assoc, ← List.flatten_cons, hjoin]
    obtain ⟨fs₁, fs₂, rem, hsplit, hdrain, hbufeq, _, hstuck2, hnil2⟩ :=
      drainAux_prefix fs (buf ++ c) (buf ++ c).length hv le_rfl hpre
    have hstep : dataReceived (done, buf) c = (done ++ fs₁, rem) := by
      simp only [dataReceived]
      rw [hdrain]
    rw [List.foldl_cons, hstep,
      ih fs₂ (done ++ fs₁) rem (fun f hf => hv f (by rw [hsplit]; simp [hf]))
        hstuck2 hnil2 (by
          have h1 : streamOf fs₁ ++ (rem ++ cs.flatten) = streamOf fs₁ ++ streamOf fs₂ := by
            rw [← List.append_assoc, hbufeq, ← streamOf_append, ← hsplit, ← hjoin]
            simp
          exact List.append_cancel_left h1),
      hsplit, List.append_assoc]

theorem flatten_map_singleton {α : Type} (l : List α) :
    (l.map (fun b => [b])).flatten = l := by
  induction l with
  | nil => rfl
  | cons a l ih => simp [ih]

/-- C3: for every sequence of valid frames, feeding their serialized
bytes to the CPC deserializer as one chunk per frame, one byte at a
time, or as a single concatenated chunk delivers the identical ordered
frame sequence — namely the original frames — in all three cases. -/
theorem cpc_chunking_invariance (fs : List CPCTransportFrame)
    (hv : ∀ f ∈ fs, ValidFrame f) :
    processChunks (fs.map CPCTransportFrame.serialize) = (fs, []) ∧
    processChunks ((fs.map CPCTransportFrame.serialize).flatten.map (fun b => [b])) =
      (fs, []) ∧
    processChunks [(fs.map CPCTransportFrame.serialize).flatten] = (fs, []) := by
  have base : ∀ chunks : List (List Nat), chunks.flatten = streamOf fs →
      processChunks chunks = (fs, []) := by
    intro chunks hc
    unfold processChunks
    have h := foldl_dataReceived chunks fs [] [] hv
      (by intro g gs hgs; simp [serialize_length]) (fun _ => rfl) (by simpa using hc)
    simpa using h
  exact ⟨base _ (by simp [streamOf]),
    base _ (by rw [flatten_map_singleton]; rfl),
    base _ (by simp [streamOf])⟩

/-- Witness: the two golden frames of the test suite are valid and the
chunk-per-frame feeding delivers exactly them. -/
theorem cpc_chunking_invariance_witness :
    (∀ f ∈ [FRAME1, FRAME2], ValidFrame f) ∧
    processChunks ([FRAME1, FRAME2].map CPCTransportFrame.serialize) =
      ([FRAME1, FRAME2], []) :=
  ⟨by decide, (cpc_chunking_invariance [FRAME1, FRAME2] (by decide)).1⟩

/-- C4: CPC serialization matches the two golden vectors bit-for-bit. -/
theorem cpc_golden_vectors :
    FRAME1.serialize =
      [0x14, 0x00, 0x16, 0x00, 0xC4, 0x57, 0xE5, 0x06, 0x00, 0x10, 0x00,
       0x03, 0x00, 0x00, 0x00, 0x04, 0x00, 0x00, 0x00, 0x04, 0x00, 0x00,
       0x00, 0x03, 0x00, 0x00, 0x00, 0x7D, 0x3E] ∧
    FRAME2.serialize =
      [0x14, 0x00, 0x19, 0x00, 0xC4, 0x66, 0xC9, 0x06, 0x01, 0x13, 0x00,
       0x04, 0x00, 0x00, 0x00, 0x34, 0x2E, 0x34, 0x2E, 0x33, 0x2D, 0x30,
       0x33, 0x36, 0x38, 0x36, 0x34, 0x32, 0x63, 0x00, 0x0B, 0xBA] := by
  refine ⟨?_, ?_⟩ <;> decide

/-- C5: feeding 21 repeated non-protocol bytes followed by CRLF delivers
zero frames and leaves the buffer empty; in general a header CRC
failure, or a payload CRC failure on a complete frame, clears the whole
buffer and delivers nothing from it. -/
theorem cpc_garbage_rejection :
    dataReceived ([], []) (List.replicate 21 0x61 ++ [13, 10]) = ([], []) ∧
    (∀ (buf : List Nat) (fuel : Nat), 7 ≤ buf.length →
      toLE16 (crc16 (buf.take 5)) ≠ [buf.getD 5 0, buf.getD 6 0] →
      drainAux (fuel + 1) buf = ([], [])) ∧
    (∀ (buf : List Nat) (fuel : Nat), 7 ≤ buf.length →
      7 + (buf.getD 2 0 + 256 * buf.getD 3 0) ≤ buf.length →
      toLE16 (crc16 ((buf.drop 7).take (buf.getD 2 0 + 256 * buf.getD 3 0 - 2))) ≠
        (buf.drop (5 + (buf.getD 2 0 + 256 * buf.getD 3 0))).take 2 →
      drainAux (fuel + 1) buf = ([], [])) := by
  refine ⟨by decide, ?_, ?_⟩
  · intro buf fuel h7 hcrc
    rw [drainAux, if_neg (by omega), if_pos hcrc]
  · intro buf fuel h7 hcomplete hcrc
    rw [drainAux, if_neg (by omega)]
    by_cases hhdr : toLE16 (crc16 (buf.take 5)) ≠ [buf.getD 5 0, buf.getD 6 0]
    · rw [if_pos hhdr]
    · rw [if_neg hhdr, if_neg (by omega), if_pos hcrc]

/-- Witness: the garbage-buffer clearing applied to the concrete 23-byte
garbage input of the test suite. -/
theorem cpc_garbage_rejection_witness :
    drainAux 24 (List.replicate 21 0x61 ++ [13, 10]) = ([], []) :=
  cpc_garbage_rejection.2.1 (List.replicate 21 0x61 ++ [13, 10]) 23
    (by decide) (by decide)

/-! ## Router line protocol -/

/-- The four states of the router protocol's state machine
(`State` in `router.py`). -/
inductive RouterState where
  | startup
  | bootwait
  | info
  | ready
  deriving Repr, DecidableEq

/-- The router protocol state: the state machine value, the accumulated
byte buffer, and the last captured version text (as raw bytes). -/
structure RouterSt where
  state : RouterState
  buffer : List Nat
  version : Option (List Nat)
  deriving Repr, DecidableEq

/-- Substring containment test on byte lists, mirroring the Python
`in` operator on `bytes`. -/
def containsSub (p : List Nat) : List Nat → Bool
  | [] => p.isEmpty
  | b :: rest => p.isPrefixOf (b :: rest) || containsSub p rest

/-- ASCII bytes of the literal prefix of the router's version-line
pattern, up to and including the opening bracket. -/
def INFO_PREFIX : List Nat := [115, 116, 97, 99, 107, 32, 118, 101, 114, 46, 32, 91]

/-- Search for the closing bracket-CR-LF after the opening bracket,
collecting the shortest capture that does not cross a newline,
mirroring the lazy group of `ROUTER_INFO_REGEX`. -/
def captureSearch : List Nat → Option (List Nat)
  | [] => none
  | b :: rest =>
    if [93, 13, 10].isPrefixOf (b :: rest) then some []
    else if b = 10 then none
    else (captureSearch rest).map (fun cap => b :: cap)

/-- Leftmost match of the version-line pattern in the buffer, returning
the captured version bytes. -/
def searchInfo : List Nat → Option (List Nat)
  | [] => none
  | b :: rest =>
    if INFO_PREFIX.isPrefixOf (b :: rest) then
      match captureSearch ((b :: rest).drop 12) with
      | some cap => some cap
      | none => searchInfo rest
    else searchInfo rest

/-- One pass of the parsing loop of `RouterProtocol.data_received`,
entered with a non-empty buffer.  Every branch either returns early
keeping the buffer (no full match yet) or clears the buffer, so the
while loop runs this body at most once per received chunk. -/
def routerPass (st : RouterSt) : RouterSt :=
  if st.state = RouterState.startup then
    if ¬ containsSub [10, 62] st.buffer then st
    else { st with state := RouterState.ready, buffer := [] }
  else if st.state = RouterState.info then
    match searchInfo st.buffer with
    | none => st
    | some cap => { state := RouterState.ready, buffer := [], version := some cap }
  else if st.state = RouterState.bootwait then
    if ¬ containsSub [71, 101, 99, 107, 111, 32, 66, 111, 111, 116, 108, 111,
        97, 100, 101, 114] st.buffer then st
    else { st with state := RouterState.ready, buffer := [] }
  else
    { st with buffer := [] }

/-- `RouterProtocol.data_received`: append the chunk to the buffer, then
run the parsing loop while the buffer is non-empty. -/
def routerDataReceived (st : RouterSt) (data : List Nat) : RouterSt :=
  let buf := st.buffer ++ data
  if buf.isEmpty then { st with buffer := buf }
  else routerPass { st with buffer := buf }

theorem captureSearch_mono (p ext : List Nat) (c : List Nat)
    (h : captureSearch p = some c) : (captureSearch (p ++ ext)).isSome := by
  induction p generalizing c with
  | nil => simp [captureSearch] at h
  | cons b rest ih =>
    rw [captureSearch] at h
    rw [List.cons_append, captureSearch]
    by_cases hcl : [93, 13, 10].isPrefixOf (b :: (rest ++ ext))
    · rw [if_pos hcl]; rfl
    · rw [if_neg hcl]
      have hcl' : ¬ [93, 13, 10].isPrefixOf (b :: rest) := by
        intro hc
        refine hcl ?_
        rw [List.isPrefixOf_iff_prefix] at hc ⊢
        exact hc.trans (by rw [show b :: (rest ++ ext) = (b :: rest) ++ ext from rfl]; exact List.prefix_append _ _)
      rw [if_neg hcl'] at h
      by_cases h10 : b = 10
      · rw [if_pos h10] at h; cases h
      · rw [if_neg h10] at h
        rw [if_neg h10]
        obtain ⟨c', hc', _⟩ := Option.map_eq_some'.mp h
        obtain ⟨d, hd⟩ := Option.isSome_iff_exists.mp (ih c' hc')
        rw [hd]
        rfl

theorem searchInfo_mono (p ext : List Nat) (c : List Nat)
    (h : searchInfo p = some c) : (searchInfo (p ++ ext)).isSome := by
  induction p generalizing c with
  | nil => simp [searchInfo] at h
  | cons b rest ih =>
    rw [searchInfo] at h
    rw [List.cons_append, searchInfo]
    by_cases hpre : INFO_PREFIX.isPrefixOf (b :: (rest ++ ext))
    · rw [if_pos hpre]
      cases hcap : captureSearch ((b :: (rest ++ ext)).drop 12) with
      | some cap => rfl
      | none =>
        by_cases hpre2 : INFO_PREFIX.isPrefixOf (b :: rest)
        · rw [if_pos hpre2] at h
          cases hcap2 : captureSearch ((b :: rest).drop 12) with
          | some cap2 =>
            exfalso
            have hlen : 12 ≤ (b :: rest).length := by
              rw [List.isPrefixOf_iff_prefix] at hpre2
              have := hpre2.length_le
              simpa [INFO_PREFIX] using this
            have hdrop : (b :: (rest ++ ext)).drop 12 = (b :: rest).drop 12 ++ ext := by
              rw [show b :: (rest ++ ext) = (b :: rest) ++ ext from rfl,
                List.drop_append_of_le_length hlen]
            have hm := captureSearch_mono ((b :: rest).drop 12) ext cap2 hcap2
            rw [← hdrop, hcap] at hm
            cases hm
          | none =>
            rw [hcap2] at h
            exact ih c h
        · rw [if_neg hpre2] at h
          exact ih c h
    · rw [if_neg hpre]
      have hpre2 : ¬ INFO_PREFIX.isPrefixOf (b :: rest) := by
        intro hc
        refine hpre ?_
        rw [List.isPrefixOf_iff_prefix] at hc ⊢
        exact hc.trans (by rw [show b :: (rest ++ ext) = (b :: rest) ++ ext from rfl]; exact List.prefix_append _ _)
      rw [if_neg hpre2] at h
      exact ih c h

theorem routerDataReceived_info_none (st : RouterSt) (data : List Nat)
    (hs : st.state = RouterState.info) (hn : searchInfo (st.buffer ++ data) = none) :
    routerDataReceived st data =
      { state := RouterState.info, buffer := st.buffer ++ data,
        version := st.version } := by
  obtain ⟨s, b, v⟩ := st
  simp only [RouterSt.state] at hs
  subst hs
  simp only [RouterSt.buffer, RouterSt.version] at hn ⊢
  simp only [routerDataReceived]
  split_ifs with he
  · rfl
  · unfold routerPass
    simp [hn]

/-- C6: while the router state machine is in INFO, delivering any
sequence of chunks whose accumulated buffer contains no complete
version-line match leaves the machine in INFO with the bytes
accumulated and the stored version unchanged; the chunk that completes
the match transitions to READY, stores the captured version text and
clears the buffer. -/
theorem router_info_requires_full_match :
    (∀ (st : RouterSt) (chunks : List (List Nat)), st.state = RouterState.info →
      searchInfo (st.buffer ++ chunks.flatten) = none →
      chunks.foldl routerDataReceived st =
        { state := RouterState.info, buffer := st.buffer ++ chunks.flatten,
          version := st.version }) ∧
    (∀ (st : RouterSt) (data cap : List Nat), st.state = RouterState.info →
      searchInfo (st.buffer ++ data) = some cap →
      routerDataReceived st data =
        { state := RouterState.ready, buffer := [], version := some cap }) := by
  constructor
  · intro st chunks
    induction chunks generalizing st with
    | nil =>
      intro hs hn
      obtain ⟨s, b, v⟩ := st
      simp only [RouterSt.state] at hs
      subst hs
      simp
    | cons c cs ih =>
      intro hs hn
      rw [List.flatten_cons, ← List.append_assoc] at hn
      have hstep : searchInfo (st.buffer ++ c) = none := by
        cases hc : searchInfo (st.buffer ++ c) with
        | none => rfl
        | some cap =>
          exfalso
          have := searchInfo_mono (st.buffer ++ c) cs.flatten cap hc
          rw [hn] at this
          cases this
      rw [List.foldl_cons, routerDataReceived_info_none st c hs hstep]
      rw [ih _ rfl (by simpa using hn)]
      simp
  · intro st data cap hs hm
    obtain ⟨s, b, v⟩ := st
    simp only [RouterSt.state] at hs
    subst hs
    simp only [RouterSt.buffer] at hm
    simp only [routerDataReceived]
    have hne : ¬ (b ++ data).isEmpty := by
      intro he
      rw [List.isEmpty_iff] at he
      rw [he] at hm
      simp [searchInfo] at hm
    rw [if_neg hne]
    unfold routerPass
    simp [hm]

/-- Witness: a version line split across two chunks only advances the
state machine when the second chunk completes the pattern. -/
theorem router_info_requires_full_match_witness :
    routerDataReceived
      { state := RouterState.info,
        buffer := [115, 116, 97, 99, 107, 32, 118, 101, 114], version := none }
      [46, 32, 91, 55, 46, 52, 46, 49, 93, 13, 10] =
      { state := RouterState.ready, buffer := [],
        version := some [55, 46, 52, 46, 49] } :=
  router_info_requires_full_match.2
    { state := RouterState.info,
      buffer := [115, 116, 97, 99, 107, 32, 118, 101, 114], version := none }
    [46, 32, 91, 55, 46, 52, 46, 49, 93, 13, 10] [55, 46, 52, 46, 49]
    rfl (by decide)

/-! ## Probing and orchestration engine -/

/-- The application types a probed device can be running
(`ApplicationType` in `const.py`, as used by `flasher.py`). -/
inductive ApplicationType where
  | gecko_bootloader
  | cpc
  | ezsp
  | spinel
  | router
  deriving Repr, DecidableEq

/-- Versions are opaque tokens for the orchestration logic; only
equality matters here. -/
abbrev Version : Type := Nat

/-- `ProbeResult` of `flasher.py`. -/
structure ProbeResult where
  version : Option Version
  continue_probing : Bool
  baudrate : Nat
  deriving DecidableEq

/-- Outcome of `GeckoBootloaderProtocol.run_firmware`: success, a
`NoFirmwareError`, or a timeout. -/
inductive RunOutcome where
  | ok
  | noFirmware
  | timeout
  deriving Repr, DecidableEq

/-- The device's behaviour during one probing call: what the bootloader
probe and launch return per baud rate, and what each application
protocol probe returns per baud rate (`none` is a timeout). -/
structure ProbeEnv where
  bl_probe : Nat → Option Version
  bl_run : Nat → RunOutcome
  app : ApplicationType → Nat → Option Version

/-- `Flasher.__init__` configuration plus the mutable session fields
`app_type`, `app_version`, `app_baudrate` and `bootloader_baudrate`. -/
structure Flasher where
  baudrates : ApplicationType → List Nat
  probe_methods : List ApplicationType
  reset_target : Bool
  app_type : Option ApplicationType
  app_version : Option Version
  app_baudrate : Option Nat
  bootloader_baudrate : Option Nat

/-- `Flasher.probe_gecko_bootloader`: probe the bootloader and, when
requested, launch the resident firmware.  A timeout anywhere makes the
whole attempt time out; a `NoFirmwareError` from the launch yields a
non-continuing result; otherwise `continue_probing` equals the
`run_firmware` flag. -/
def probe_gecko_bootloader (env : ProbeEnv) (run_firmware : Bool)
    (baudrate : Nat) : Option ProbeResult :=
  match env.bl_probe baudrate with
  | none => none
  | some v =>
    if run_firmware then
      match env.bl_run baudrate with
      | RunOutcome.ok => some ⟨some v, true, baudrate⟩
      | RunOutcome.noFirmware => some ⟨some v, false, baudrate⟩
      | RunOutcome.timeout => none
    else some ⟨some v, false, baudrate⟩

/-- The non-bootloader probes (`probe_cpc`, `probe_ezsp`,
`probe_spinel`, `probe_router`) all return a non-continuing result on
success and propagate a timeout otherwise. -/
def probe_other (env : ProbeEnv) (t : ApplicationType) (baudrate : Nat) :
    Option ProbeResult :=
  match env.app t baudrate with
  | none => none
  | some v => some ⟨some v, false, baudrate⟩

/-- Dispatch one probe attempt for a candidate pair, as `probe_funcs`
does in `probe_app_type`. -/
def attemptOutcome (env : ProbeEnv) (run_firmware : Bool)
    (p : ApplicationType × Nat) : Option ProbeResult :=
  match p.1 with
  | ApplicationType.gecko_bootloader => probe_gecko_bootloader env run_firmware p.2
  | t => probe_other env t p.2

/-- Reorder candidate types so the `try_first` subset precedes the
rest, preserving relative order within each partition. -/
def reorderTypes (types try_first : List ApplicationType) : List ApplicationType :=
  types.filter (fun m => m ∈ try_first) ++ types.filter (fun m => m ∉ try_first)

/-- The ordered candidate (application type, baud rate) pairs generated
by the probing loop's nested iteration. -/
def mkPairs (types : List ApplicationType) (baudrates : ApplicationType → List Nat) :
    List (ApplicationType × Nat) :=
  types.flatMap (fun m => (baudrates m).map (fun b => (m, b)))

/-- The `run_firmware` flag: only launch firmware from the bootloader
when a reset target is configured and the bootloader is not the sole
candidate type. -/
def runFirmwareFlag (f : Flasher) (types : List ApplicationType) : Bool :=
  f.reset_target && !(decide (types = [ApplicationType.gecko_bootloader]))

/-- Result of the candidate loop: the updated session, the remembered
bootloader probe result, the attempted (non-skipped) probes in order,
and whether a non-continuing result was found (`break`). -/
structure LoopResult where
  flasher : Flasher
  bl : Option ProbeResult
  probes : List (ApplicationType × Nat)
  found : Bool

/-- The candidate loop of `probe_app_type`: skip the bootloader once it
has already been probed, treat timeouts as try-next, remember the first
bootloader result (updating `bootloader_baudrate`), continue on
`continue_probing` results and stop on the first non-continuing one,
assigning the session identity. -/
def probeLoop (env : ProbeEnv) (rf : Bool) :
    List (ApplicationType × Nat) → Flasher → Option ProbeResult → LoopResult
  | [], f, bl => ⟨f, bl, [], false⟩
  | (m, b) :: rest, f, bl =>
    if m = ApplicationType.gecko_bootloader ∧ bl.isSome then
      probeLoop env rf rest f bl
    else
      match attemptOutcome env rf (m, b) with
      | none =>
        let r := probeLoop env rf rest f bl
        ⟨r.flasher, r.bl, (m, b) :: r.probes, r.found⟩
      | some result =>
        let f2 := if m = ApplicationType.gecko_bootloader
          then { f with bootloader_baudrate := some result.baudrate } else f
        let bl2 := if m = ApplicationType.gecko_bootloader then some result else bl
        if result.continue_probing then
          let r := probeLoop env rf rest f2 bl2
          ⟨r.flasher, r.bl, (m, b) :: r.probes, r.found⟩
        else
          ⟨{ f2 with
              app_type := some m
              app_version := result.version
              app_baudrate := some result.baudrate }, bl2, [(m, b)], true⟩

/-- Result of one `probe_app_type` call: the updated session, whether
the `RuntimeError` was raised, the attempted probes and the number of
reset triggers fired. -/
structure RunResult where
  flasher : Flasher
  error : Bool
  probes : List (ApplicationType × Nat)
  resets : Nat

/-- `Flasher.probe_app_type`: reorder the candidates, trigger the
configured reset, run the candidate loop, and on exhaustion either fall
back to the bootloader identity (re-triggering the reset) or raise. -/
def probe_app_type (env : ProbeEnv) (f : Flasher)
    (types : Option (List ApplicationType)) (try_first : List ApplicationType) :
    RunResult :=
  let ts := reorderTypes (types.getD f.probe_methods) try_first
  let resets0 := if f.reset_target then 1 else 0
  let r := probeLoop env (runFirmwareFlag f ts) (mkPairs ts f.baudrates) f none
  if r.found then ⟨r.flasher, false, r.probes, resets0⟩
  else
    match r.bl, f.reset_target with
    | some blr, true =>
      ⟨{ r.flasher with
          app_type := some ApplicationType.gecko_bootloader
          app_version := blr.version
          app_baudrate := some blr.baudrate
          bootloader_baudrate := some blr.baudrate }, false, r.probes, resets0 + 1⟩
    | _, _ => ⟨r.flasher, true, r.probes, resets0⟩

/-- A probe attempt that does not decide the identity: it either times
out or returns a `continue_probing` result. -/
def continuesOrTimesOut (env : ProbeEnv) (rf : Bool) (p : ApplicationType × Nat) : Prop :=
  ∀ r, attemptOutcome env rf p = some r → r.continue_probing = true

instance (env : ProbeEnv) (rf : Bool) (p : ApplicationType × Nat) :
    Decidable (continuesOrTimesOut env rf p) :=
  match h : attemptOutcome env rf p with
  | none => isTrue (by intro r hr; rw [h] at hr; cases hr)
  | some result =>
    if hc : result.continue_probing = true then
      isTrue (by intro r hr; rw [h] at hr; cases hr; exact hc)
    else
      isFalse (by intro hall; exact hc (hall result h))

/-- The result of the first successful bootloader probe among the
candidate pairs, if any. -/
def firstBLSuccess (env : ProbeEnv) (rf : Bool) :
    List (ApplicationType × Nat) → Option ProbeResult
  | [] => none
  | (m, b) :: rest =>
    if m = ApplicationType.gecko_bootloader then
      match probe_gecko_bootloader env rf b with
      | some r => some r
      | none => firstBLSuccess env rf rest
    else firstBLSuccess env rf rest

theorem attempt_other_continue_false (env : ProbeEnv) (rf : Bool)
    (m : ApplicationType) (b : Nat) (r : ProbeResult)
    (hm : m ≠ ApplicationType.gecko_bootloader)
    (h : attemptOutcome env rf (m, b) = some r) : r.continue_probing = false := by
  cases m <;> simp only [attemptOutcome, probe_other] at h
  · exact absurd rfl hm
  all_goals
    cases happ : env.app _ b <;> rw [happ] at h
    · cases h
    · cases h; rfl

theorem attempt_other_none (env : ProbeEnv) (rf : Bool) (m : ApplicationType) (b : Nat)
    (hm : m ≠ ApplicationType.gecko_bootloader)
    (hcont : continuesOrTimesOut env rf (m, b)) :
    attemptOutcome env rf (m, b) = none := by
  cases h : attemptOutcome env rf (m, b) with
  | none => rfl
  | some r =>
    have h1 := hcont r h
    have h2 := attempt_other_continue_false env rf m b r hm h
    rw [h1] at h2
    cases h2

theorem probeLoop_skip (env : ProbeEnv) (rf : Bool) (m : ApplicationType) (b : Nat)
    (rest : List (ApplicationType × Nat)) (f : Flasher) (bl : Option ProbeResult)
    (h1 : m = ApplicationType.gecko_bootloader) (h2 : bl.isSome) :
    probeLoop env rf ((m, b) :: rest) f bl = probeLoop env rf rest f bl := by
  rw [probeLoop, if_pos ⟨h1, h2⟩]

theorem probeLoop_timeout (env : ProbeEnv) (rf : Bool) (m : ApplicationType) (b : Nat)
    (rest : List (ApplicationType × Nat)) (f : Flasher) (bl : Option ProbeResult)
    (hns : ¬(m = ApplicationType.gecko_bootloader ∧ bl.isSome))
    (h : attemptOutcome env rf (m, b) = none) :
    probeLoop env rf ((m, b) :: rest) f bl =
      ⟨(probeLoop env rf rest f bl).flasher, (probeLoop env rf rest f bl).bl,
       (m, b) :: (probeLoop env rf rest f bl).probes,
       (probeLoop env rf rest f bl).found⟩ := by
  rw [probeLoop, if_neg hns, h]

theorem probeLoop_continue_other (env : ProbeEnv) (rf : Bool) (m : ApplicationType)
    (b : Nat) (rest : List (ApplicationType × Nat)) (f : Flasher)
    (bl : Option ProbeResult) (result : ProbeResult)
    (hm : m ≠ ApplicationType.gecko_bootloader)
    (h : attemptOutcome env rf (m, b) = some result)
    (hc : result.continue_probing = true) :
    probeLoop env rf ((m, b) :: rest) f bl =
      ⟨(probeLoop env rf rest f bl).flasher, (probeLoop env rf rest f bl).bl,
       (m, b) :: (probeLoop env rf rest f bl).probes,
       (probeLoop env rf rest f bl).found⟩ := by
  rw [probeLoop, if_neg (by intro hand; exact hm hand.1), h]
  simp only [if_neg hm, hc, if_true]

theorem probeLoop_continue_bl (env : ProbeEnv) (rf : Bool) (b : Nat)
    (rest : List (ApplicationType × Nat)) (f : Flasher) (bl : Option ProbeResult)
    (result : ProbeResult)
    (hbl : bl = none)
    (h : attemptOutcome env rf (ApplicationType.gecko_bootloader, b) = some result)
    (hc : result.continue_probing = true) :
    probeLoop env rf ((ApplicationType.gecko_bootloader, b) :: rest) f bl =
      ⟨(probeLoop env rf rest { f with bootloader_baudrate := some result.baudrate }
          (some result)).flasher,
       (probeLoop env rf rest { f with bootloader_baudrate := some result.baudrate }
          (some result)).bl,
       (ApplicationType.gecko_bootloader, b) ::
         (probeLoop env rf rest { f with bootloader_baudrate := some result.baudrate }
            (some result)).probes,
       (probeLoop env rf rest { f with bootloader_baudrate := some result.baudrate }
          (some result)).found⟩ := by
  subst hbl
  rw [probeLoop, if_neg (by intro hand; cases hand.2), h]
  simp only [if_pos rfl, hc, if_true]

theorem probeLoop_final_other (env : ProbeEnv) (rf : Bool) (m : ApplicationType)
    (b : Nat) (rest : List (ApplicationType × Nat)) (f : Flasher)
    (bl : Option ProbeResult) (result : ProbeResult)
    (hm : m ≠ ApplicationType.gecko_bootloader)
    (h : attemptOutcome env rf (m, b) = some result)
    (hc : result.continue_probing = false) :
    probeLoop env rf ((m, b) :: rest) f bl =
      ⟨{ f with
          app_type := some m
          app_version := result.version
          app_baudrate := some result.baudrate }, bl, [(m, b)], true⟩ := by
  rw [probeLoop, if_neg (by intro hand; exact hm hand.1), h]
  simp [hm, hc]

theorem probeLoop_final_bl (env : ProbeEnv) (rf : Bool) (b : Nat)
    (rest : List (ApplicationType × Nat)) (f : Flasher) (bl : Option ProbeResult)
    (result : ProbeResult)
    (hbl : bl = none)
    (h : attemptOutcome env rf (ApplicationType.gecko_bootloader, b) = some result)
    (hc : result.continue_probing = false) :
    probeLoop env rf ((ApplicationType.gecko_bootloader, b) :: rest) f bl =
      ⟨{ f with
          bootloader_baudrate := some result.baudrate
          app_type := some ApplicationType.gecko_bootloader
          app_version := result.version
          app_baudrate := some result.baudrate },
       some result, [(ApplicationType.gecko_bootloader, b)], true⟩ := by
  subst hbl
  rw [probeLoop, if_neg (by intro hand; cases hand.2), h]
  simp [hc]

/-- C1 core: if every candidate before some pair either times out or
yields a continuing result, that pair's probe returns a non-continuing
result, and (when that pair is the bootloader) no earlier bootloader
success could cause it to be skipped, then the loop stops there with
the pair's identity and attempts no later pair. -/
theorem probeLoop_first_final (env : ProbeEnv) (rf : Bool) :
    ∀ (pre : List (ApplicationType × Nat)) (m₀ : ApplicationType) (b₀ : Nat)
      (post : List (ApplicationType × Nat)) (f : Flasher) (bl : Option ProbeResult)
      (r : ProbeResult),
      (∀ p ∈ pre, continuesOrTimesOut env rf p) →
      attemptOutcome env rf (m₀, b₀) = some r →
      r.continue_probing = false →
      (m₀ = ApplicationType.gecko_bootloader → bl = none ∧
        ∀ p ∈ pre, p.1 ≠ ApplicationType.gecko_bootloader ∨
          attemptOutcome env rf p = none) →
      (probeLoop env rf (pre ++ (m₀, b₀) :: post) f bl).found = true ∧
      (probeLoop env rf (pre ++ (m₀, b₀) :: post) f bl).flasher.app_type = some m₀ ∧
      (probeLoop env rf (pre ++ (m₀, b₀) :: post) f bl).flasher.app_version = r.version ∧
      (probeLoop env rf (pre ++ (m₀, b₀) :: post) f bl).flasher.app_baudrate =
        some r.baudrate ∧
      List.Sublist (probeLoop env rf (pre ++ (m₀, b₀) :: post) f bl).probes
        (pre ++ [(m₀, b₀)]) := by
  intro pre
  induction pre with
  | nil =>
    intro m₀ b₀ post f bl r _ hfin hcont hnoskip
    by_cases hm : m₀ = ApplicationType.gecko_bootloader
    · subst hm
      rw [List.nil_append,
        probeLoop_final_bl env rf b₀ post f bl r (hnoskip rfl).1 hfin hcont]
      refine ⟨rfl, rfl, rfl, rfl, ?_⟩
      simp
    · rw [List.nil_append, probeLoop_final_other env rf m₀ b₀ post f bl r hm hfin hcont]
      refine ⟨rfl, rfl, rfl, rfl, ?_⟩
      simp
  | cons p pre' ih =>
    intro m₀ b₀ post f bl r hbef hfin hcont hnoskip
    obtain ⟨m, b⟩ := p
    have hbef' : ∀ q ∈ pre', continuesOrTimesOut env rf q :=
      fun q hq => hbef q (List.mem_cons_of_mem _ hq)
    rw [List.cons_append]
    by_cases hskip : m = ApplicationType.gecko_bootloader ∧ bl.isSome
    · rw [probeLoop_skip env rf m b _ f bl hskip.1 hskip.2]
      have hnoskip' : m₀ = ApplicationType.gecko_bootloader → bl = none ∧
          ∀ q ∈ pre', q.1 ≠ ApplicationType.gecko_bootloader ∨
            attemptOutcome env rf q = none := by
        intro hm₀
        refine absurd (hnoskip hm₀).1 ?_
        intro hbl
        rw [hbl] at hskip
        cases hskip.2
      obtain ⟨c1, c2, c3, c4, c5⟩ := ih m₀ b₀ post f bl r hbef' hfin hcont hnoskip'
      exact ⟨c1, c2, c3, c4, c5.trans (List.sublist_cons_self _ _)⟩
    · cases hatt : attemptOutcome env rf (m, b) with
      | none =>
        rw [probeLoop_timeout env rf m b _ f bl hskip hatt]
        have hnoskip' : m₀ = ApplicationType.gecko_bootloader → bl = none ∧
            ∀ q ∈ pre', q.1 ≠ ApplicationType.gecko_bootloader ∨
              attemptOutcome env rf q = none := by
          intro hm₀
          exact ⟨(hnoskip hm₀).1,
            fun q hq => (hnoskip hm₀).2 q (List.mem_cons_of_mem _ hq)⟩
        obtain ⟨c1, c2, c3, c4, c5⟩ := ih m₀ b₀ post f bl r hbef' hfin hcont hnoskip'
        exact ⟨c1, c2, c3, c4, c5.cons₂ _⟩
      | some result =>
        have hrc : result.continue_probing = true :=
          hbef (m, b) (List.mem_cons_self _ _) result hatt
        by_cases hm : m = ApplicationType.gecko_bootloader
        · subst hm
          have hblnone : bl = none := by
            cases hblv : bl with
            | none => rfl
            | some x => exact absurd ⟨rfl, by rw [hblv]; rfl⟩ hskip
          subst hblnone
          rw [probeLoop_continue_bl env rf b _ f none result rfl hatt hrc]
          have hnoskip' : m₀ = ApplicationType.gecko_bootloader → some result = none ∧
              ∀ q ∈ pre', q.1 ≠ ApplicationType.gecko_bootloader ∨
                attemptOutcome env rf q = none := by
            intro hm₀
            have := (hnoskip hm₀).2 (ApplicationType.gecko_bootloader, b)
              (List.mem_cons_self _ _)
            rcases this with h1 | h2
            · exact absurd rfl h1
            · rw [hatt] at h2; cases h2
          obtain ⟨c1, c2, c3, c4, c5⟩ := ih m₀ b₀ post
            { f with bootloader_baudrate := some result.baudrate } (some result) r
            hbef' hfin hcont hnoskip'
          exact ⟨c1, c2, c3, c4, c5.cons₂ _⟩
        · rw [probeLoop_continue_other env rf m b _ f bl result hm hatt hrc]
          have hnoskip' : m₀ = ApplicationType.gecko_bootloader → bl = none ∧
              ∀ q ∈ pre', q.1 ≠ ApplicationType.gecko_bootloader ∨
                attemptOutcome env rf q = none := by
            intro hm₀
            exact ⟨(hnoskip hm₀).1,
              fun q hq => (hnoskip hm₀).2 q (List.mem_cons_of_mem _ hq)⟩
          obtain ⟨c1, c2, c3, c4, c5⟩ := ih m₀ b₀ post f bl r hbef' hfin hcont hnoskip'
          exact ⟨c1, c2, c3, c4, c5.cons₂ _⟩

/-- With the bootloader already probed, an exhausted loop (all
candidates continue or time out) leaves the session untouched. -/
theorem probeLoop_exhaust_some (env : ProbeEnv) (rf : Bool) :
    ∀ (pairs : List (ApplicationType × Nat)) (f : Flasher) (blr : ProbeResult),
      (∀ p ∈ pairs, continuesOrTimesOut env rf p) →
      ∃ probes, probeLoop env rf pairs f (some blr) = ⟨f, some blr, probes, false⟩ := by
  intro pairs
  induction pairs with
  | nil => intro f blr _; exact ⟨[], rfl⟩
  | cons p rest ih =>
    intro f blr hall
    obtain ⟨m, b⟩ := p
    have hall' : ∀ q ∈ rest, continuesOrTimesOut env rf q :=
      fun q hq => hall q (List.mem_cons_of_mem _ hq)
    by_cases hm : m = ApplicationType.gecko_bootloader
    · rw [probeLoop_skip env rf m b rest f (some blr) hm rfl]
      exact ih f blr hall'
    · have hatt := attempt_other_none env rf m b hm (hall (m, b) (List.mem_cons_self _ _))
      rw [probeLoop_timeout env rf m b rest f (some blr) (by intro hand; exact hm hand.1) hatt]
      obtain ⟨probes, hp⟩ := ih f blr hall'
      rw [hp]
      exact ⟨(m, b) :: probes, rfl⟩

/-- Starting fresh, an exhausted loop returns the first bootloader
success (if any) as the remembered bootloader probe, updates only
`bootloader_baudrate` accordingly, and reports no detection. -/
theorem probeLoop_exhaust_none (env : ProbeEnv) (rf : Bool) :
    ∀ (pairs : List (ApplicationType × Nat)) (f : Flasher),
      (∀ p ∈ pairs, continuesOrTimesOut env rf p) →
      ∃ probes, probeLoop env rf pairs f none =
        ⟨{ f with bootloader_baudrate := (firstBLSuccess env rf pairs).elim f.bootloader_baudrate (fun r => some r.baudrate) },
         firstBLSuccess env rf pairs, probes, false⟩ := by
  intro pairs
  induction pairs with
  | nil => intro f _; exact ⟨[], rfl⟩
  | cons p rest ih =>
    intro f hall
    obtain ⟨m, b⟩ := p
    have hall' : ∀ q ∈ rest, continuesOrTimesOut env rf q :=
      fun q hq => hall q (List.mem_cons_of_mem _ hq)
    by_cases hm : m = ApplicationType.gecko_bootloader
    · subst hm
      cases hbl : probe_gecko_bootloader env rf b with
      | none =>
        have hatt : attemptOutcome env rf (ApplicationType.gecko_bootloader, b) = none := hbl
        rw [probeLoop_timeout env rf _ b rest f none (by intro hand; cases hand.2) hatt]
        obtain ⟨probes, hp⟩ := ih f hall'
        rw [hp, firstBLSuccess, if_pos rfl, hbl]
        exact ⟨_ :: probes, rfl⟩
      | some result =>
        have hatt : attemptOutcome env rf (ApplicationType.gecko_bootloader, b) =
            some result := hbl
        have hrc : result.continue_probing = true :=
          hall _ (List.mem_cons_self _ _) result hatt
        rw [probeLoop_continue_bl env rf b rest f none result rfl hatt hrc]
        obtain ⟨probes, hp⟩ := probeLoop_exhaust_some env rf rest
          { f with bootloader_baudrate := some result.baudrate } result hall'
        rw [hp, firstBLSuccess, if_pos rfl, hbl]
        exact ⟨_ :: probes, rfl⟩
    · have hatt := attempt_other_none env rf m b hm (hall (m, b) (List.mem_cons_self _ _))
      rw [probeLoop_timeout env rf m b rest f none (by intro hand; exact hm hand.1) hatt]
      obtain ⟨probes, hp⟩ := ih f hall'
      rw [hp, firstBLSuccess, if_neg hm]
      exact ⟨(m, b) :: probes, rfl⟩

/-- When the loop does not detect an application, the three application
identity fields are untouched. -/
theorem probeLoop_not_found_fields (env : ProbeEnv) (rf : Bool) :
    ∀ (pairs : List (ApplicationType × Nat)) (f : Flasher) (bl : Option ProbeResult),
      (probeLoop env rf pairs f bl).found = false →
      (probeLoop env rf pairs f bl).flasher.app_type = f.app_type ∧
      (probeLoop env rf pairs f bl).flasher.app_version = f.app_version ∧
      (probeLoop env rf pairs f bl).flasher.app_baudrate = f.app_baudrate := by
  intro pairs
  induction pairs with
  | nil => intro f bl _; exact ⟨rfl, rfl, rfl⟩
  | cons p rest ih =>
    intro f bl hnf
    obtain ⟨m, b⟩ := p
    by_cases hskip : m = ApplicationType.gecko_bootloader ∧ bl.isSome
    · rw [probeLoop_skip env rf m b rest f bl hskip.1 hskip.2] at hnf ⊢
      exact ih f bl hnf
    · cases hatt : attemptOutcome env rf (m, b) with
      | none =>
        rw [probeLoop_timeout env rf m b rest f bl hskip hatt] at hnf ⊢
        exact ih f bl hnf
      | some result =>
        cases hrc : result.continue_probing with
        | true =>
          by_cases hm : m = ApplicationType.gecko_bootloader
          · subst hm
            have hblnone : bl = none := by
              cases hblv : bl with
              | none => rfl
              | some x => exact absurd ⟨rfl, by rw [hblv]; rfl⟩ hskip
            subst hblnone
            rw [probeLoop_continue_bl env rf b rest f none result rfl hatt hrc] at hnf ⊢
            exact ih _ _ hnf
          · rw [probeLoop_continue_other env rf m b rest f bl result hm hatt hrc] at hnf ⊢
            exact ih f bl hnf
        | false =>
          exfalso
          by_cases hm : m = ApplicationType.gecko_bootloader
          · subst hm
            have hblnone : bl = none := by
              cases hblv : bl with
              | none => rfl
              | some x => exact absurd ⟨rfl, by rw [hblv]; rfl⟩ hskip
            subst hblnone
            rw [probeLoop_final_bl env rf b rest f none result rfl hatt hrc] at hnf
            cases hnf
          · rw [probeLoop_final_other env rf m b rest f bl result hm hatt hrc] at hnf
            cases hnf

/-- The remembered bootloader probe is never forgotten. -/
theorem probeLoop_bl_mono (env : ProbeEnv) (rf : Bool) :
    ∀ (pairs : List (ApplicationType × Nat)) (f : Flasher) (blr : ProbeResult),
      ((probeLoop env rf pairs f (some blr)).bl).isSome := by
  intro pairs
  induction pairs with
  | nil => intro f blr; rfl
  | cons p rest ih =>
    intro f blr
    obtain ⟨m, b⟩ := p
    by_cases hm : m = ApplicationType.gecko_bootloader
    · rw [probeLoop_skip env rf m b rest f (some blr) hm rfl]
      exact ih f blr
    · cases hatt : attemptOutcome env rf (m, b) with
      | none =>
        rw [probeLoop_timeout env rf m b rest f (some blr) (by intro hand; exact hm hand.1) hatt]
        exact ih f blr
      | some result =>
        cases hrc : result.continue_probing with
        | true =>
          rw [probeLoop_continue_other env rf m b rest f (some blr) result hm hatt hrc]
          exact ih f blr
        | false =>
          rw [probeLoop_final_other env rf m b rest f (some blr) result hm hatt hrc]
          rfl

/-- If the loop ends with no remembered bootloader probe, it never saw
a bootloader success, so `bootloader_baudrate` is untouched. -/
theorem probeLoop_bl_none_bb (env : ProbeEnv) (rf : Bool) :
    ∀ (pairs : List (ApplicationType × Nat)) (f : Flasher),
      (probeLoop env rf pairs f none).bl = none →
      (probeLoop env rf pairs f none).flasher.bootloader_baudrate =
        f.bootloader_baudrate := by
  intro pairs
  induction pairs with
  | nil => intro f _; rfl
  | cons p rest ih =>
    intro f hbl
    obtain ⟨m, b⟩ := p
    cases hatt : attemptOutcome env rf (m, b) with
    | none =>
      rw [probeLoop_timeout env rf m b rest f none (by intro hand; cases hand.2) hatt] at hbl ⊢
      exact ih f hbl
    | some result =>
      by_cases hm : m = ApplicationType.gecko_bootloader
      · subst hm
        exfalso
        cases hrc : result.continue_probing with
        | true =>
          rw [probeLoop_continue_bl env rf b rest f none result rfl hatt hrc] at hbl
          have h2 : (probeLoop env rf rest
              { f with bootloader_baudrate := some result.baudrate } (some result)).bl =
              none := hbl
          have h3 := probeLoop_bl_mono env rf rest
            { f with bootloader_baudrate := some result.baudrate } result
          rw [h2] at h3
          cases h3
        | false =>
          rw [probeLoop_final_bl env rf b rest f none result rfl hatt hrc] at hbl
          cases hbl
      · cases hrc : result.continue_probing with
        | true =>
          rw [probeLoop_continue_other env rf m b rest f none result hm hatt hrc] at hbl ⊢
          exact ih f hbl
        | false =>
          rw [probeLoop_final_other env rf m b rest f none result hm hatt hrc] at hbl ⊢

/-- With firmware launching disabled, any bootloader success is final,
so an undetected run means every attempt timed out: nothing changes. -/
theorem probeLoop_rf_false (env : ProbeEnv) :
    ∀ (pairs : List (ApplicationType × Nat)) (f : Flasher) (bl : Option ProbeResult),
      (probeLoop env false pairs f bl).found = false →
      (probeLoop env false pairs f bl).flasher = f ∧
      (probeLoop env false pairs f bl).bl = bl := by
  intro pairs
  induction pairs with
  | nil => intro f bl _; exact ⟨rfl, rfl⟩
  | cons p rest ih =>
    intro f bl hnf
    obtain ⟨m, b⟩ := p
    by_cases hskip : m = ApplicationType.gecko_bootloader ∧ bl.isSome
    · rw [probeLoop_skip env false m b rest f bl hskip.1 hskip.2] at hnf ⊢
      exact ih f bl hnf
    · cases hatt : attemptOutcome env false (m, b) with
      | none =>
        rw [probeLoop_timeout env false m b rest f bl hskip hatt] at hnf ⊢
        exact ih f bl hnf
      | some result =>
        exfalso
        have hrc : result.continue_probing = false := by
          by_cases hm : m = ApplicationType.gecko_bootloader
          · subst hm
            simp only [attemptOutcome, probe_gecko_bootloader] at hatt
            cases hpr : env.bl_probe b with
            | none => rw [hpr] at hatt; cases hatt
            | some v =>
              rw [hpr] at hatt
              simp only [if_neg (by simp : ¬(false = true))] at hatt
              cases hatt
              rfl
          · exact attempt_other_continue_false env false m b result hm hatt
        by_cases hm : m = ApplicationType.gecko_bootloader
        · subst hm
          have hblnone : bl = none := by
            cases hblv : bl with
            | none => rfl
            | some x => exact absurd ⟨rfl, by rw [hblv]; rfl⟩ hskip
          subst hblnone
          rw [probeLoop_final_bl env false b rest f none result rfl hatt hrc] at hnf
          cases hnf
        · rw [probeLoop_final_other env false m b rest f bl result hm hatt hrc] at hnf
          cases hnf

/-- C1: `probe_app_type` stops at the first candidate whose probe
returns a non-continuing result, assigning that probe's application
type, version and baud rate to the session, raising no error and
attempting no later candidate pair. -/
theorem probe_app_type_first_wins
    (env : ProbeEnv) (f : Flasher) (types : Option (List ApplicationType))
    (try_first : List ApplicationType) (pre post : List (ApplicationType × Nat))
    (m₀ : ApplicationType) (b₀ : Nat) (r : ProbeResult)
    (hpairs : mkPairs (reorderTypes (types.getD f.probe_methods) try_first) f.baudrates =
      pre ++ (m₀, b₀) :: post)
    (hbefore : ∀ p ∈ pre, continuesOrTimesOut env
      (runFirmwareFlag f (reorderTypes (types.getD f.probe_methods) try_first)) p)
    (hfinal : attemptOutcome env
      (runFirmwareFlag f (reorderTypes (types.getD f.probe_methods) try_first)) (m₀, b₀) =
      some r)
    (hr : r.continue_probing = false)
    (hnoskip : m₀ = ApplicationType.gecko_bootloader →
      ∀ p ∈ pre, p.1 ≠ ApplicationType.gecko_bootloader ∨
        attemptOutcome env
          (runFirmwareFlag f (reorderTypes (types.getD f.probe_methods) try_first)) p =
          none) :
    (probe_app_type env f types try_first).error = false ∧
    (probe_app_type env f types try_first).flasher.app_type = some m₀ ∧
    (probe_app_type env f types try_first).flasher.app_version = r.version ∧
    (probe_app_type env f types try_first).flasher.app_baudrate = some r.baudrate ∧
    List.Sublist (probe_app_type env f types try_first).probes (pre ++ [(m₀, b₀)]) := by
  obtain ⟨c1, c2, c3, c4, c5⟩ := probeLoop_first_final env
    (runFirmwareFlag f (reorderTypes (types.getD f.probe_methods) try_first))
    pre m₀ b₀ post f none r hbefore hfinal hr (fun hm₀ => ⟨rfl, hnoskip hm₀⟩)
  simp only [probe_app_type]
  rw [hpairs, if_pos c1]
  exact ⟨rfl, c2, c3, c4, c5⟩

/-- C2: when every candidate is exhausted without a non-continuing
result, `probe_app_type` falls back to the bootloader identity and
re-triggers the reset when a bootloader probe succeeded and a reset
target is configured, and otherwise raises, leaving the application
identity fields unchanged. -/
theorem probe_app_type_exhaustion
    (env : ProbeEnv) (f : Flasher) (types : Option (List ApplicationType))
    (try_first : List ApplicationType)
    (hall : ∀ p ∈ mkPairs (reorderTypes (types.getD f.probe_methods) try_first) f.baudrates,
      continuesOrTimesOut env
        (runFirmwareFlag f (reorderTypes (types.getD f.probe_methods) try_first)) p) :
    (∀ blr, firstBLSuccess env
        (runFirmwareFlag f (reorderTypes (types.getD f.probe_methods) try_first))
        (mkPairs (reorderTypes (types.getD f.probe_methods) try_first) f.baudrates) =
        some blr →
      f.reset_target = true →
      ∃ probes, probe_app_type env f types try_first =
        ⟨{ f with
            app_type := some ApplicationType.gecko_bootloader
            app_version := blr.version
            app_baudrate := some blr.baudrate
            bootloader_baudrate := some blr.baudrate }, false, probes, 2⟩) ∧
    ((firstBLSuccess env
        (runFirmwareFlag f (reorderTypes (types.getD f.probe_methods) try_first))
        (mkPairs (reorderTypes (types.getD f.probe_methods) try_first) f.baudrates) =
        none ∨ f.reset_target = false) →
      (probe_app_type env f types try_first).error = true ∧
      (probe_app_type env f types try_first).flasher.app_type = f.app_type ∧
      (probe_app_type env f types try_first).flasher.app_version = f.app_version ∧
      (probe_app_type env f types try_first).flasher.app_baudrate = f.app_baudrate) := by
  obtain ⟨probes, hp⟩ := probeLoop_exhaust_none env
    (runFirmwareFlag f (reorderTypes (types.getD f.probe_methods) try_first))
    (mkPairs (reorderTypes (types.getD f.probe_methods) try_first) f.baudrates) f hall
  constructor
  · intro blr hbl hrst
    refine ⟨probes, ?_⟩
    simp only [probe_app_type]
    rw [hp, hbl, hrst]
    simp
  · intro h
    simp only [probe_app_type]
    rw [hp]
    rcases h with hbl | hrst
    · rw [hbl]
      cases hrt : f.reset_target <;> exact ⟨rfl, rfl, rfl, rfl⟩
    · rw [hrst]
      cases hfb : firstBLSuccess env
          (runFirmwareFlag f (reorderTypes (types.getD f.probe_methods) try_first))
          (mkPairs (reorderTypes (types.getD f.probe_methods) try_first) f.baudrates) <;>
        exact ⟨rfl, rfl, rfl, rfl⟩

/-- C10 (amended): when `probe_app_type` raises its exhaustion error,
every session field — `app_type`, `app_version`, `app_baudrate` and
also `bootloader_baudrate` — holds the value it held before the call. -/
theorem probe_app_type_error_preserves_session
    (env : ProbeEnv) (f : Flasher) (types : Option (List ApplicationType))
    (try_first : List ApplicationType)
    (herr : (probe_app_type env f types try_first).error = true) :
    (probe_app_type env f types try_first).flasher.app_type = f.app_type ∧
    (probe_app_type env f types try_first).flasher.app_version = f.app_version ∧
    (probe_app_type env f types try_first).flasher.app_baudrate = f.app_baudrate ∧
    (probe_app_type env f types try_first).flasher.bootloader_baudrate =
      f.bootloader_baudrate := by
  simp only [probe_app_type] at herr ⊢
  cases hfound : (probeLoop env
      (runFirmwareFlag f (reorderTypes (types.getD f.probe_methods) try_first))
      (mkPairs (reorderTypes (types.getD f.probe_methods) try_first) f.baudrates) f
      none).found with
  | true =>
    rw [if_pos hfound] at herr
    cases herr
  | false =>
    rw [if_neg (by intro h; cases h)]
    rw [if_neg (by rw [hfound]; intro h; cases h)] at herr
    cases hbl : (probeLoop env
        (runFirmwareFlag f (reorderTypes (types.getD f.probe_methods) try_first))
        (mkPairs (reorderTypes (types.getD f.probe_methods) try_first) f.baudrates) f
        none).bl with
    | none =>
      rw [hbl] at herr
      obtain ⟨a1, a2, a3⟩ := probeLoop_not_found_fields env
        (runFirmwareFlag f (reorderTypes (types.getD f.probe_methods) try_first))
        (mkPairs (reorderTypes (types.getD f.probe_methods) try_first) f.baudrates) f
        none hfound
      exact ⟨a1, a2, a3, probeLoop_bl_none_bb env _ _ f hbl⟩
    | some blr =>
      rw [hbl] at herr
      cases hrt : f.reset_target <;> simp only [hrt] at herr ⊢
      · have hrf : runFirmwareFlag f
            (reorderTypes (types.getD f.probe_methods) try_first) = false := by
          simp [runFirmwareFlag, hrt]
        rw [hrf] at hfound ⊢
        obtain ⟨he, _⟩ := probeLoop_rf_false env
          (mkPairs (reorderTypes (types.getD f.probe_methods) try_first) f.baudrates) f
          none hfound
        rw [he]
        exact ⟨rfl, rfl, rfl, rfl⟩
      · cases herr

/-- C10 counterexample to the claim as stated: there is no run at all
in which the exhaustion error is raised and `bootloader_baudrate` was
changed, because a successful bootloader probe either becomes the
detection result itself (no reset target, firmware launch disabled) or
triggers the bootloader fallback instead of the error. -/
theorem probe_app_type_error_bb_counterexample :
    ¬ ∃ (env : ProbeEnv) (f : Flasher) (types : Option (List ApplicationType))
        (try_first : List ApplicationType),
        (probe_app_type env f types try_first).error = true ∧
        (probe_app_type env f types try_first).flasher.bootloader_baudrate ≠
          f.bootloader_baudrate := by
  rintro ⟨env, f, types, try_first, herr, hbb⟩
  exact hbb (probe_app_type_error_preserves_session env f types try_first herr).2.2.2

/-- `bellows.types.EmberStatus.SUCCESS`. -/
def EmberStatus.SUCCESS : Nat := 0

/-- Outcome of the EZSP `launchStandaloneBootloader` command: a timeout
or a returned status code. -/
inductive LaunchOutcome where
  | timeout
  | status (s : Nat)
  deriving Repr, DecidableEq

/-- The EZSP branch of `Flasher.enter_bootloader`: a timeout of the
launch command is swallowed (bootloader assumed launched); a returned
status other than SUCCESS raises. -/
def ezsp_launch_step : LaunchOutcome → Bool
  | LaunchOutcome.timeout => false
  | LaunchOutcome.status s => decide (s ≠ EmberStatus.SUCCESS)

/-- `Flasher.enter_bootloader`: probe if the identity is unknown,
dispatch to the detected protocol's bootloader-entry operation (the
vendor-stack EZSP case via `ezsp_launch_step`, the other transports
either succeeding or timing out per `transportOk`), then probe the
bootloader baud rate if it is still unknown.  Returns the updated
session and whether an error was raised. -/
def flasher_enter_bootloader (env : ProbeEnv) (transportOk : ApplicationType → Bool)
    (f : Flasher) (launch : LaunchOutcome) : Flasher × Bool :=
  let pr : RunResult :=
    if f.app_type = none then probe_app_type env f none [] else ⟨f, false, [], 0⟩
  if pr.error then (pr.flasher, true)
  else
    let f1 := pr.flasher
    let raised : Bool :=
      match f1.app_type with
      | some ApplicationType.gecko_bootloader => false
      | some ApplicationType.ezsp => ezsp_launch_step launch
      | some t => !(transportOk t)
      | none => true
    if raised then (f1, true)
    else if f1.bootloader_baudrate = none then
      let pr2 := probe_app_type env f1 (some [ApplicationType.gecko_bootloader]) []
      (pr2.flasher, pr2.error)
    else (f1, false)

/-- Result of `Flasher.write_emberznet_eui64`: the updated session,
whether an error was raised, the probes attempted by the initial
re-probe, the `write_custom_eui64` calls issued (new address and the
`burn_into_userdata` flag), and the returned boolean. -/
structure WriteResult where
  flasher : Flasher
  error : Bool
  probes : List (ApplicationType × Nat)
  writes : List (Nat × Bool)
  returned : Bool

/-- `Flasher.write_emberznet_eui64`: re-probe prioritizing the
bootloader and EZSP, fail unless EZSP was detected, then compare the
device's current address (`current`, as read by `getEui64`) with the
new one: equal addresses are a no-op returning `false`, different ones
issue exactly one write call and return `true`. -/
def write_emberznet_eui64 (env : ProbeEnv) (f : Flasher) (current new_ieee : Nat)
    (force : Bool) : WriteResult :=
  let pr := probe_app_type env f none
    [ApplicationType.gecko_bootloader, ApplicationType.ezsp]
  if pr.error then ⟨pr.flasher, true, pr.probes, [], false⟩
  else if pr.flasher.app_type ≠ some ApplicationType.ezsp then
    ⟨pr.flasher, true, pr.probes, [], false⟩
  else if current = new_ieee then ⟨pr.flasher, false, pr.probes, [], false⟩
  else ⟨pr.flasher, false, pr.probes, [(new_ieee, force)], true⟩

/-- Result of `Flasher.dump_emberznet_config`: whether it raised, and
the probes it performed (it performs none — it only checks the
session's already-detected application type). -/
structure DumpResult where
  error : Bool
  probes : List (ApplicationType × Nat)
  deriving DecidableEq

/-- `Flasher.dump_emberznet_config`: fail fast when the session's
detected application type is not EZSP; no re-probe is performed. -/
def dump_emberznet_config (f : Flasher) : DumpResult :=
  ⟨decide (f.app_type ≠ some ApplicationType.ezsp), []⟩

/-- Modelled from the spec: the claimed behaviour of the config dump —
first re-probe the device, then fail fast if the detected type is not
the vendor stack.  Stated only to compare with the code's
`dump_emberznet_config`, which does not re-probe. -/
def dump_emberznet_config_spec (env : ProbeEnv) (f : Flasher) : DumpResult :=
  let pr := probe_app_type env f none []
  ⟨pr.error || decide (pr.flasher.app_type ≠ some ApplicationType.ezsp), pr.probes⟩

/-- C7: with the vendor stack detected, `enter_bootloader` treats a
timeout of the bootloader-launch command as success and proceeds, as it
does for a SUCCESS status, but raises on any other returned status. -/
theorem ezsp_enter_bootloader_status_handling :
    (∀ (env : ProbeEnv) (transportOk : ApplicationType → Bool) (f : Flasher),
      f.app_type = some ApplicationType.ezsp →
      f.bootloader_baudrate ≠ none →
      flasher_enter_bootloader env transportOk f LaunchOutcome.timeout = (f, false) ∧
      flasher_enter_bootloader env transportOk f
        (LaunchOutcome.status EmberStatus.SUCCESS) = (f, false)) ∧
    (∀ (env : ProbeEnv) (transportOk : ApplicationType → Bool) (f : Flasher) (s : Nat),
      f.app_type = some ApplicationType.ezsp →
      s ≠ EmberStatus.SUCCESS →
      flasher_enter_bootloader env transportOk f (LaunchOutcome.status s) = (f, true)) := by
  constructor
  · intro env transportOk f hezsp hbb
    have hnn : ¬(f.app_type = none) := by rw [hezsp]; intro h; cases h
    constructor <;>
    · simp only [flasher_enter_bootloader, if_neg hnn, hezsp]
      simp [ezsp_launch_step, hezsp, hbb]
  · intro env transportOk f s hezsp hs
    have hnn : ¬(f.app_type = none) := by rw [hezsp]; intro h; cases h
    simp only [flasher_enter_bootloader, if_neg hnn, hezsp]
    simp [ezsp_launch_step, hezsp, hs]

/-- C8: with EZSP detected by the prioritized re-probe, writing an
address equal to the device's current address issues no write call and
returns `false`; a different address issues exactly one write call
carrying the new value (and the force flag) and returns `true`. -/
theorem write_eui64_idempotence
    (env : ProbeEnv) (f : Flasher) (current new_ieee : Nat) (force : Bool)
    (hok : (probe_app_type env f none
      [ApplicationType.gecko_bootloader, ApplicationType.ezsp]).error = false)
    (hezsp : (probe_app_type env f none
      [ApplicationType.gecko_bootloader, ApplicationType.ezsp]).flasher.app_type =
      some ApplicationType.ezsp) :
    (current = new_ieee →
      (write_emberznet_eui64 env f current new_ieee force).writes = [] ∧
      (write_emberznet_eui64 env f current new_ieee force).returned = false) ∧
    (current ≠ new_ieee →
      (write_emberznet_eui64 env f current new_ieee force).writes = [(new_ieee, force)] ∧
      (write_emberznet_eui64 env f current new_ieee force).returned = true) := by
  constructor <;> intro hcur <;>
  · simp only [write_emberznet_eui64, hok, hezsp]
    simp [hcur]

/-- C9 (amended): the address write first re-probes (prioritizing the
bootloader and EZSP) and fails fast exactly when the re-probed type is
not EZSP, while the config dump performs no re-probe and fails fast
exactly when the session's existing detected type is not EZSP. -/
theorem identity_ops_fail_fast :
    (∀ f : Flasher, (dump_emberznet_config f).probes = [] ∧
      ((dump_emberznet_config f).error = true ↔
        f.app_type ≠ some ApplicationType.ezsp)) ∧
    (∀ (env : ProbeEnv) (f : Flasher) (current new_ieee : Nat) (force : Bool),
      (write_emberznet_eui64 env f current new_ieee force).probes =
        (probe_app_type env f none
          [ApplicationType.gecko_bootloader, ApplicationType.ezsp]).probes ∧
      ((probe_app_type env f none
          [ApplicationType.gecko_bootloader, ApplicationType.ezsp]).error = false →
        ((write_emberznet_eui64 env f current new_ieee force).error = true ↔
          (probe_app_type env f none
            [ApplicationType.gecko_bootloader, ApplicationType.ezsp]).flasher.app_type ≠
            some ApplicationType.ezsp))) := by
  constructor
  · intro f
    refine ⟨rfl, ?_⟩
    simp [dump_emberznet_config]
  · intro env f current new_ieee force
    constructor
    · simp only [write_emberznet_eui64]
      by_cases he : (probe_app_type env f none
          [ApplicationType.gecko_bootloader, ApplicationType.ezsp]).error
      · simp [he]
      · simp only [Bool.not_eq_true] at he
        simp only [he]
        by_cases ht : (probe_app_type env f none
            [ApplicationType.gecko_bootloader, ApplicationType.ezsp]).flasher.app_type =
            some ApplicationType.ezsp
        · simp only [ht]
          by_cases hc : current = new_ieee <;> simp [hc]
        · simp [ht]
    · intro hok
      simp only [write_emberznet_eui64, hok]
      by_cases ht : (probe_app_type env f none
          [ApplicationType.gecko_bootloader, ApplicationType.ezsp]).flasher.app_type =
          some ApplicationType.ezsp
      · simp only [ht]
        by_cases hc : current = new_ieee <;> simp [hc, ht]
      · simp [ht]

/-- A device that times out on the bootloader probe and answers the
EZSP probe at 115200 baud (the scenario of `test_write_emberznet_eui64`). -/
def exEnv : ProbeEnv :=
  { bl_probe := fun _ => none
    bl_run := fun _ => RunOutcome.ok
    app := fun t b =>
      if t = ApplicationType.ezsp ∧ b = 115200 then some 7 else none }

/-- A fresh session with the default probe order, one candidate baud
rate for the bootloader and EZSP, and no reset target. -/
def exFlasher : Flasher :=
  { baudrates := fun t =>
      if t = ApplicationType.gecko_bootloader ∨ t = ApplicationType.ezsp
      then [115200] else []
    probe_methods := [ApplicationType.gecko_bootloader, ApplicationType.cpc,
      ApplicationType.ezsp, ApplicationType.router, ApplicationType.spinel]
    reset_target := false
    app_type := none
    app_version := none
    app_baudrate := none
    bootloader_baudrate := none }

/-- Witness: with a bootloader timeout and an EZSP success, the probe
stops at EZSP with its version and baud rate, attempting nothing after
the EZSP pair. -/
theorem probe_app_type_first_wins_witness :
    (probe_app_type exEnv exFlasher none
      [ApplicationType.gecko_bootloader, ApplicationType.ezsp]).error = false ∧
    (probe_app_type exEnv exFlasher none
      [ApplicationType.gecko_bootloader, ApplicationType.ezsp]).flasher.app_type =
      some ApplicationType.ezsp ∧
    (probe_app_type exEnv exFlasher none
      [ApplicationType.gecko_bootloader, ApplicationType.ezsp]).flasher.app_version =
      some 7 ∧
    (probe_app_type exEnv exFlasher none
      [ApplicationType.gecko_bootloader, ApplicationType.ezsp]).flasher.app_baudrate =
      some 115200 ∧
    List.Sublist (probe_app_type exEnv exFlasher none
      [ApplicationType.gecko_bootloader, ApplicationType.ezsp]).probes
      ([(ApplicationType.gecko_bootloader, 115200)] ++ [(ApplicationType.ezsp, 115200)]) :=
  probe_app_type_first_wins exEnv exFlasher none
    [ApplicationType.gecko_bootloader, ApplicationType.ezsp]
    [(ApplicationType.gecko_bootloader, 115200)] [] ApplicationType.ezsp 115200
    ⟨some 7, false, 115200⟩ (by decide) (by decide) (by decide) rfl (by decide)

/-- A device whose bootloader answers at 115200 baud and launches an
application that never identifies itself; a reset target is configured. -/
def exEnv2 : ProbeEnv :=
  { bl_probe := fun b => if b = 115200 then some 5 else none
    bl_run := fun _ => RunOutcome.ok
    app := fun _ _ => none }

/-- A session with a reset target, probing the bootloader then EZSP. -/
def exFlasher2 : Flasher :=
  { baudrates := fun t =>
      if t = ApplicationType.gecko_bootloader ∨ t = ApplicationType.ezsp
      then [115200] else []
    probe_methods := [ApplicationType.gecko_bootloader, ApplicationType.ezsp]
    reset_target := true
    app_type := none
    app_version := none
    app_baudrate := none
    bootloader_baudrate := none }

/-- Witness: exhaustion with an earlier bootloader success and a reset
target falls back to the bootloader identity and fires the reset twice. -/
theorem probe_app_type_exhaustion_witness :
    ∃ probes, probe_app_type exEnv2 exFlasher2 none [] =
      ⟨{ exFlasher2 with
          app_type := some ApplicationType.gecko_bootloader
          app_version := some 5
          app_baudrate := some 115200
          bootloader_baudrate := some 115200 }, false, probes, 2⟩ :=
  (probe_app_type_exhaustion exEnv2 exFlasher2 none [] (by decide)).1
    ⟨some 5, true, 115200⟩ (by decide) rfl

/-- A device that answers nothing at all. -/
def exEnvT : ProbeEnv :=
  { bl_probe := fun _ => none
    bl_run := fun _ => RunOutcome.ok
    app := fun _ _ => none }

/-- Witness: a fully timed-out probe raises and leaves every session
field untouched. -/
theorem probe_app_type_error_preserves_session_witness :
    (probe_app_type exEnvT exFlasher none []).flasher.app_type = exFlasher.app_type ∧
    (probe_app_type exEnvT exFlasher none []).flasher.app_version =
      exFlasher.app_version ∧
    (probe_app_type exEnvT exFlasher none []).flasher.app_baudrate =
      exFlasher.app_baudrate ∧
    (probe_app_type exEnvT exFlasher none []).flasher.bootloader_baudrate =
      exFlasher.bootloader_baudrate :=
  probe_app_type_error_preserves_session exEnvT exFlasher none [] (by decide)

/-- A session with EZSP already detected and a known bootloader baud
rate. -/
def exFlasher3 : Flasher :=
  { baudrates := fun _ => [115200]
    probe_methods := [ApplicationType.gecko_bootloader, ApplicationType.ezsp]
    reset_target := false
    app_type := some ApplicationType.ezsp
    app_version := some 7
    app_baudrate := some 115200
    bootloader_baudrate := some 115200 }

/-- Witness: the EZSP bootloader launch tolerates a timeout and a
SUCCESS status but raises on a failure status. -/
theorem ezsp_enter_bootloader_status_handling_witness :
    flasher_enter_bootloader exEnvT (fun _ => true) exFlasher3 LaunchOutcome.timeout =
      (exFlasher3, false) ∧
    flasher_enter_bootloader exEnvT (fun _ => true) exFlasher3
      (LaunchOutcome.status 1) = (exFlasher3, true) :=
  ⟨(ezsp_enter_bootloader_status_handling.1 exEnvT (fun _ => true) exFlasher3 rfl
      (by decide)).1,
   ezsp_enter_bootloader_status_handling.2 exEnvT (fun _ => true) exFlasher3 1 rfl
     (by decide)⟩

/-- Witness: with the device's current address equal to the new one no
write is issued and `false` is returned; with a different address one
write with the new value is issued and `true` is returned. -/
theorem write_eui64_idempotence_witness :
    ((write_emberznet_eui64 exEnv exFlasher 1 1 false).writes = [] ∧
     (write_emberznet_eui64 exEnv exFlasher 1 1 false).returned = false) ∧
    ((write_emberznet_eui64 exEnv exFlasher 1 2 true).writes = [(2, true)] ∧
     (write_emberznet_eui64 exEnv exFlasher 1 2 true).returned = true) :=
  ⟨(write_eui64_idempotence exEnv exFlasher 1 1 false (by decide) (by decide)).1 rfl,
   (write_eui64_idempotence exEnv exFlasher 1 2 true (by decide) (by decide)).2
     (by decide)⟩

/-- C9 counterexample: on a fresh session whose device would identify
as EZSP if re-probed, the code's config dump fails fast without
performing any probe, whereas the claimed re-probe-first behaviour
(`dump_emberznet_config_spec`) would probe and succeed. -/
theorem dump_config_no_reprobe_counterexample :
    dump_emberznet_config exFlasher = ⟨true, []⟩ ∧
    dump_emberznet_config_spec exEnv exFlasher =
      ⟨false, [(ApplicationType.gecko_bootloader, 115200),
               (ApplicationType.ezsp, 115200)]⟩ := by
  constructor
  · rfl
  · decide

/-- Witness: the write path's fail-fast test evaluated on the concrete
EZSP-detecting device. -/
theorem identity_ops_fail_fast_witness :
    (write_emberznet_eui64 exEnv exFlasher 1 2 true).error = true ↔
      (probe_app_type exEnv exFlasher none
        [ApplicationType.gecko_bootloader, ApplicationType.ezsp]).flasher.app_type ≠
        some ApplicationType.ezsp :=
  (identity_ops_fail_fast.2 exEnv exFlasher 1 2 true).2 (by decide)

end SilabsFlasher
